import Mathlib

/-!
Shallow embedding of the coin-selection / transaction-assembly engine of the
`cardano_marketplace` backend (`src/backend/src/coin.rs`,
`src/backend/src/marketplace/mod.rs`, `src/backend/src/error.rs`), together
with theorems checking the natural-language specification against it.

Machine integers (`u64` / `BigNum`) are modelled as `Nat` with explicit
`< 2^64` checks where the source performs checked arithmetic; fallible Rust
code returning `Result` is modelled with `Except Error`.  Functions of the
external `cardano_serialization_lib` crate (minimum-ada computation,
transaction hashing, fee computation, witness creation) are out of scope of
the repository and are modelled as parameters collected in `ExternalLedger`.
-/

namespace CardanoMarketplace

/-- The `u64` overflow bound: `BigNum` checked arithmetic fails at `2^64`. -/
def U64_LIMIT : Nat := 2 ^ 64

/- Coin (lovelace) amounts, `u64`/`BigNum` in the source, are plain `Nat`
here with explicit `< 2^64` bounds where the source checks them. -/

abbrev PolicyID := Nat
abbrev AssetName := Nat

/-- An address, modelled by its byte string (`Address::to_bytes`). -/
abbrev Address := List Nat

abbrev DataHash := Nat
abbrev AuxiliaryData := Nat
abbrev Vkeywitness := Nat

/-- A multi-asset bundle: quantities keyed by `(policy id, asset name)`. -/
abbrev MultiAsset := List ((PolicyID × AssetName) × Nat)

/-- `cardano_serialization_lib` `Value`: a coin amount plus optional assets. -/
structure Value where
  coin : Nat
  multiasset : Option MultiAsset
deriving DecidableEq

/-- `Value::new(coin)`: a bare value with no multiasset. -/
def Value.new (c : Nat) : Value := { coin := c, multiasset := none }

/-- `Value::set_coin`. -/
def Value.set_coin (v : Value) (c : Nat) : Value := { v with coin := c }

/-- `TransactionInput`: reference to a prior output. -/
structure TransactionInput where
  transaction_id : Nat
  index : Nat
deriving DecidableEq

/-- `TransactionOutput`: address, value, optional attached-data hash. -/
structure TransactionOutput where
  address : Address
  amount : Value
  data_hash : Option DataHash
deriving DecidableEq

/-- `TransactionOutput::new(address, amount)`: no data hash attached. -/
def TransactionOutput.new (a : Address) (v : Value) : TransactionOutput :=
  { address := a, amount := v, data_hash := none }

/-- `TransactionUnspentOutput`: an input reference plus the output it created. -/
structure TransactionUnspentOutput where
  input : TransactionInput
  output : TransactionOutput
deriving DecidableEq

/-- `CoinSelectionFailure` from `src/backend/src/coin.rs`. -/
inductive CoinSelectionFailure where
  | BalanceInsufficient
  | NotFragmentedEnough
  | FullyDepleted
  | MaximumInputCountExceeded
  | Other (msg : String)
deriving DecidableEq

/-- The crate-wide `Error` enum from `src/backend/src/error.rs`; payloads of
variants wrapping external library errors are modelled as strings.
(`Error::Io` is rendered `IoErr` here.) -/
inductive Error where
  | Js (msg : String)
  | Deserialize (msg : String)
  | HexDecode (msg : String)
  | CborDeserialize (msg : String)
  | IoErr (msg : String)
  | Message (msg : String)
  | JsonDecode (msg : String)
  | NetworkRequest (msg : String)
  | Coin (e : CoinSelectionFailure)
  | Sqlx (msg : String)
  | Unknown
deriving DecidableEq

/-- The kind tag of an error value: the name of its enum variant. -/
def Error.kind : Error → String
  | .Js _ => "Js"
  | .Deserialize _ => "Deserialize"
  | .HexDecode _ => "HexDecode"
  | .CborDeserialize _ => "CborDeserialize"
  | .IoErr _ => "Io"
  | .Message _ => "Message"
  | .JsonDecode _ => "JsonDecode"
  | .NetworkRequest _ => "NetworkRequest"
  | .Coin _ => "Nat"
  | .Sqlx _ => "Sqlx"
  | .Unknown => "Unknown"

/-- `BigNum::checked_add` (u64 addition, `JsError` on overflow). -/
def checked_add (a b : Nat) : Except Error Nat :=
  if a + b < U64_LIMIT then .ok (a + b) else .error (.Js "overflow")

/-- `BigNum::checked_sub` (u64 subtraction, `JsError` on underflow). -/
def checked_sub (a b : Nat) : Except Error Nat :=
  if b ≤ a then .ok (a - b) else .error (.Js "underflow")

/-- `LinearFee`: per-byte coefficient `a` and constant `b`. -/
structure LinearFee where
  coefficient : Nat
  constant : Nat
deriving DecidableEq

/-- `ProtocolParams` from `src/backend/src/cardano_db_sync/protocol.rs`. -/
structure ProtocolParams where
  linear_fee : LinearFee
  minimum_utxo_value : Nat
  pool_deposit : Nat
  key_deposit : Nat
  max_tx_size : Nat
  max_value_size : Nat
  coins_per_utxo_word : Nat
deriving DecidableEq

/-- Multi-asset mint, `policy → name → signed quantity`. -/
abbrev Mint := List ((PolicyID × AssetName) × Int)

/-- A transaction body as produced by `TransactionBuilder::build` (external)
and further mutated by `set_mint` in `build_transaction_body`. -/
structure TransactionBody where
  inputs : List TransactionInput
  outputs : List TransactionOutput
  fee : Nat
  ttl : Option Nat
  mint : Option Mint
  auxiliary_data_hash : Option AuxiliaryData
deriving DecidableEq

/-- `TransactionBody::set_mint`. -/
def TransactionBody.set_mint (b : TransactionBody) (m : Mint) : TransactionBody :=
  { b with mint := some m }

/-- `TransactionWitnessSet`; script/datum payloads are opaque naturals. -/
structure TransactionWitnessSet where
  vkeys : Option (List Vkeywitness) := none
  native_scripts : Option (List Nat) := none
  bootstraps : Option (List Nat) := none
  plutus_scripts : Option (List Nat) := none
  plutus_data : Option (List Nat) := none
  redeemers : Option (List Nat) := none
deriving DecidableEq

/-- `Transaction::new(body, witness_set, auxiliary_data)`. -/
structure Transaction where
  body : TransactionBody
  witness_set : TransactionWitnessSet
  auxiliary_data : Option AuxiliaryData
deriving DecidableEq

def Transaction.new (b : TransactionBody) (w : TransactionWitnessSet)
    (a : Option AuxiliaryData) : Transaction :=
  { body := b, witness_set := w, auxiliary_data := a }

/-- The external `cardano_serialization_lib` functions the engine delegates to,
treated as black-box parameters (see spec, OUT OF SCOPE):
`min_ada_required`, `hash_transaction`, `make_vkey_witness` (with the global
dummy `PRIVATE_KEY`, so a function of the hash alone), and `min_fee`. -/
structure ExternalLedger where
  min_ada_required : Value → Nat → Nat
  hash_transaction : TransactionBody → Nat
  make_vkey_witness : Nat → Vkeywitness
  min_fee : Transaction → LinearFee → Except Error Nat

/-- The relevant state of the external `TransactionBuilder`: inputs added via
`add_input` (address, input, value), outputs via `add_output`, the fee, ttl
and auxiliary data.  The external size checks of `add_output` are not part of
this repository and are not modelled. -/
structure TransactionBuilder where
  inputs : List (Address × TransactionInput × Value)
  outputs : List TransactionOutput
  fee : Option Nat
  ttl : Option Nat
  auxiliary_data : Option AuxiliaryData
deriving DecidableEq

def TransactionBuilder.add_input (tb : TransactionBuilder) (a : Address)
    (i : TransactionInput) (v : Value) : TransactionBuilder :=
  { tb with inputs := tb.inputs ++ [(a, i, v)] }

def TransactionBuilder.add_output (tb : TransactionBuilder)
    (o : TransactionOutput) : TransactionBuilder :=
  { tb with outputs := tb.outputs ++ [o] }

def TransactionBuilder.set_fee (tb : TransactionBuilder) (f : Nat) :
    TransactionBuilder :=
  { tb with fee := some f }

def TransactionBuilder.set_ttl (tb : TransactionBuilder) (t : Nat) :
    TransactionBuilder :=
  { tb with ttl := some t }

def TransactionBuilder.set_auxiliary_data (tb : TransactionBuilder)
    (a : AuxiliaryData) : TransactionBuilder :=
  { tb with auxiliary_data := some a }

/-- `TransactionBuilder::build` (external): assembles the body from the
builder.  The auxiliary-data hash is modelled by the payload itself. -/
def TransactionBuilder.build (tb : TransactionBuilder) :
    Except Error TransactionBody :=
  match tb.fee with
  | none => .error (.Js "fee not set")
  | some f =>
    .ok { inputs := tb.inputs.map (fun e => e.2.1)
          outputs := tb.outputs
          fee := f
          ttl := tb.ttl
          mint := none
          auxiliary_data_hash := tb.auxiliary_data }

/-- `MAX_TRIES` (`src/backend/src/coin.rs` line 24). -/
def MAX_TRIES : Nat := 10

/-- `TransactionWitnessSetParams` (lines 50–70); `vkey_count` defaults to 1. -/
structure TransactionWitnessSetParams where
  vkey_count : Nat := 1
  native_scripts : Option (List Nat) := none
  bootstraps : Option (List Nat) := none
  plutus_scripts : Option (List Nat) := none
  plutus_data : Option (List Nat) := none
  redeemers : Option (List Nat) := none
deriving DecidableEq

/-- `create_n_vkey_witnesses` (lines 72–78): n dummy witnesses over the same
hash with the process-global placeholder key. -/
def create_n_vkey_witnesses (ext : ExternalLedger) (n : Nat) (hash : Nat) :
    List Vkeywitness :=
  List.replicate n (ext.make_vkey_witness hash)

/-- `create_dummy_tx_witness_set` (lines 80–109). -/
def create_dummy_tx_witness_set (ext : ExternalLedger)
    (params : TransactionWitnessSetParams) (hash : Nat) :
    TransactionWitnessSet :=
  { vkeys := some (create_n_vkey_witnesses ext params.vkey_count hash)
    native_scripts := params.native_scripts
    bootstraps := params.bootstraps
    plutus_scripts := params.plutus_scripts
    plutus_data := params.plutus_data
    redeemers := params.redeemers }

/-- `calculate_maximum_fees` (lines 111–113): the linear-fee coefficient. -/
def calculate_maximum_fees (protocol_params : ProtocolParams) : Nat :=
  protocol_params.linear_fee.coefficient

/-- `set_output_lovelace` (lines 274–285): same address and multiasset, coin
replaced, data hash preserved. -/
def set_output_lovelace (output : TransactionOutput) (new_lovelace : Nat) :
    TransactionOutput :=
  { address := output.address
    amount := output.amount.set_coin new_lovelace
    data_hash := output.data_hash }

/-- The recursion of `calculate_output_amount` (lines 251–272): raise each
below-minimum output to its minimum, accumulating the total. -/
def calculate_output_amount_go (ext : ExternalLedger) (min_utxo_value : Nat) :
    List TransactionOutput → Nat → Except Error (List TransactionOutput × Nat)
  | [], total => .ok ([], total)
  | output :: rest, total =>
    let amount := output.amount
    let min_lovelace := ext.min_ada_required amount min_utxo_value
    if amount.coin < min_lovelace then
      match checked_add total min_lovelace with
      | .error e => .error e
      | .ok total =>
        match calculate_output_amount_go ext min_utxo_value rest total with
        | .error e => .error e
        | .ok (outs, t) => .ok (set_output_lovelace output min_lovelace :: outs, t)
    else
      match checked_add total amount.coin with
      | .error e => .error e
      | .ok total =>
        match calculate_output_amount_go ext min_utxo_value rest total with
        | .error e => .error e
        | .ok (outs, t) => .ok (output :: outs, t)

/-- `calculate_output_amount` (lines 251–272): the running total starts at
the fee. -/
def calculate_output_amount (ext : ExternalLedger)
    (outputs : List TransactionOutput) (fees : Nat) (min_utxo_value : Nat) :
    Except Error (List TransactionOutput × Nat) :=
  calculate_output_amount_go ext min_utxo_value outputs fees

/-- `start_transaction` (lines 237–249): a fresh builder with the ttl set. -/
def start_transaction (_params : ProtocolParams) (ttl : Nat) :
    TransactionBuilder :=
  TransactionBuilder.set_ttl
    { inputs := [], outputs := [], fee := none, ttl := none,
      auxiliary_data := none } ttl

/-- Stable ascending insertion by coin key, modelling
`utxos.sort_by_key(|utxo| utxo.output().amount().coin())` (line 171):
`Vec::sort_by_key` is a stable ascending sort. -/
def insert_by_coin (u : TransactionUnspentOutput) :
    List TransactionUnspentOutput → List TransactionUnspentOutput
  | [] => [u]
  | v :: rest =>
    if u.output.amount.coin ≤ v.output.amount.coin then u :: v :: rest
    else v :: insert_by_coin u rest

def sort_by_coin (l : List TransactionUnspentOutput) :
    List TransactionUnspentOutput :=
  l.foldr insert_by_coin []

/-- The loop seeding the selected amount with the mandatory inputs
(lines 188–192): `selected_amount = Σ inputs coin` via `checked_add`. -/
def seed_selected_go : List TransactionUnspentOutput → Nat → Except Error Nat
  | [], acc => .ok acc
  | u :: rest, acc =>
    match checked_add acc u.output.amount.coin with
    | .error e => .error e
    | .ok acc => seed_selected_go rest acc

/-- Seeding of the selected amount with the mandatory inputs, starting from
`BigNum::zero()` (lines 188–192). -/
def seed_selected_amount (inputs : List TransactionUnspentOutput) :
    Except Error Nat :=
  seed_selected_go inputs 0

/-- The `while let Some(utxo) = utxos.pop()` loop of
`largest_first_coin_selection` (lines 194–232 of `coin.rs`).  The list
argument is the sorted candidate vector reversed, so popping from the vector's
end becomes taking the head.  The source computes
`selected_amount.checked_sub(&total_output_amount)` twice (lines 222 and 227)
with identical results; here it is bound once. -/
def selection_loop (ext : ExternalLedger) (params : ProtocolParams)
    (total_output_amount : Nat) :
    List TransactionUnspentOutput → Nat → TransactionBuilder →
    Except Error TransactionBuilder
  | [], _, _ => .error (.Coin .BalanceInsufficient)
  | utxo :: rest, selected_amount, tx_builder =>
    let amt := utxo.output.amount
    let step : Except Error (Nat × TransactionBuilder) :=
      match amt.multiasset with
      | some _ =>
        -- Has asset so we leave a minimum amount inside to preserve the assets
        let min_amount := ext.min_ada_required amt params.minimum_utxo_value
        match checked_sub amt.coin min_amount with
        | .error _ => .error (.Coin .BalanceInsufficient)
        | .ok extracted_amount =>
          let tb := tx_builder.add_output (set_output_lovelace utxo.output min_amount)
          match checked_add selected_amount extracted_amount with
          | .error e => .error e
          | .ok s => .ok (s, tb)
      | none =>
        -- We consume this input
        match checked_add selected_amount amt.coin with
        | .error e => .error e
        | .ok s => .ok (s, tx_builder)
    match step with
    | .error e => .error e
    | .ok (selected_amount, tx_builder) =>
      let tx_builder := tx_builder.add_input utxo.output.address utxo.input
        utxo.output.amount
      if total_output_amount ≤ selected_amount then
        let change_amount := ext.min_ada_required
          (Value.new params.minimum_utxo_value) params.minimum_utxo_value
        match checked_sub selected_amount total_output_amount with
        | .error e => .error e
        | .ok leftover =>
          if leftover < change_amount then
            selection_loop ext params total_output_amount rest selected_amount
              tx_builder
          else
            let change_value := Value.new leftover
            let change_output := TransactionOutput.new utxo.output.address
              change_value
            .ok (tx_builder.add_output change_output)
      else
        selection_loop ext params total_output_amount rest selected_amount
          tx_builder

/-- `largest_first_coin_selection` (lines 163–235). -/
def largest_first_coin_selection (ext : ExternalLedger)
    (outputs : List TransactionOutput)
    (inputs : List TransactionUnspentOutput)
    (utxos : List TransactionUnspentOutput)
    (fees : Nat) (params : ProtocolParams) (ttl : Nat) :
    Except Error TransactionBuilder :=
  let utxos := sort_by_coin utxos
  match calculate_output_amount ext outputs fees params.minimum_utxo_value with
  | .error e => .error e
  | .ok (outputs, total_output_amount) =>
    let tx_builder := start_transaction params ttl
    let tx_builder := inputs.foldl
      (fun tb u => tb.add_input u.output.address u.input u.output.amount)
      tx_builder
    let tx_builder := tx_builder.set_fee fees
    let tx_builder := outputs.foldl TransactionBuilder.add_output tx_builder
    match seed_selected_amount inputs with
    | .error e => .error e
    | .ok selected_amount =>
      selection_loop ext params total_output_amount utxos.reverse
        selected_amount tx_builder

/-- One attempt of the fee-convergence loop body (`build_transaction_body`,
lines 128–158): run selection with the current fee guess, attach auxiliary
data, build the draft body, set the mint, assemble a draft transaction with
the placeholder witness set, and compute the true minimum fee. -/
def build_attempt (ext : ExternalLedger)
    (utxos inputs : List TransactionUnspentOutput)
    (outputs : List TransactionOutput) (ttl : Nat)
    (protocol_params : ProtocolParams) (mint : Option Mint)
    (witness_params : TransactionWitnessSetParams)
    (auxiliary_data : Option AuxiliaryData) (fees : Nat) :
    Except Error (TransactionBody × Nat) :=
  match largest_first_coin_selection ext outputs inputs utxos fees
      protocol_params ttl with
  | .error e => .error e
  | .ok tx_builder =>
    let tx_builder := match auxiliary_data with
      | some aux_data => tx_builder.set_auxiliary_data aux_data
      | none => tx_builder
    match tx_builder.build with
    | .error e => .error e
    | .ok tx_body =>
      let tx_body := match mint with
        | some m => tx_body.set_mint m
        | none => tx_body
      let witness_set := create_dummy_tx_witness_set ext witness_params
        (ext.hash_transaction tx_body)
      let tx := Transaction.new tx_body witness_set auxiliary_data
      match ext.min_fee tx protocol_params.linear_fee with
      | .error e => .error e
      | .ok calculated_fees => .ok (tx_body, calculated_fees)

/-- The `for _ in 0..MAX_TRIES` loop of `build_transaction_body`
(lines 128–160), with the remaining try count as fuel: a computed fee equal
to the guess is a fixed point and returns the body; otherwise the computed
fee becomes the next guess; an exhausted budget is `BalanceInsufficient`. -/
def build_transaction_body_loop (ext : ExternalLedger)
    (utxos inputs : List TransactionUnspentOutput)
    (outputs : List TransactionOutput) (ttl : Nat)
    (protocol_params : ProtocolParams) (mint : Option Mint)
    (witness_params : TransactionWitnessSetParams)
    (auxiliary_data : Option AuxiliaryData) :
    Nat → Nat → Except Error TransactionBody
  | 0, _ => .error (.Coin .BalanceInsufficient)
  | tries + 1, fees =>
    match build_attempt ext utxos inputs outputs ttl protocol_params mint
        witness_params auxiliary_data fees with
    | .error e => .error e
    | .ok (tx_body, calculated_fees) =>
      if calculated_fees = fees then .ok tx_body
      else
        build_transaction_body_loop ext utxos inputs outputs ttl
          protocol_params mint witness_params auxiliary_data tries
          calculated_fees

/-- `build_transaction_body` (lines 115–161): seeds the fee guess with
`calculate_maximum_fees` when none is supplied and runs the loop for
`MAX_TRIES` attempts. -/
def build_transaction_body (ext : ExternalLedger)
    (utxos inputs : List TransactionUnspentOutput)
    (outputs : List TransactionOutput) (ttl : Nat)
    (protocol_params : ProtocolParams) (fees : Option Nat)
    (mint : Option Mint) (witness_params : TransactionWitnessSetParams)
    (auxiliary_data : Option AuxiliaryData) :
    Except Error TransactionBody :=
  build_transaction_body_loop ext utxos inputs outputs ttl protocol_params
    mint witness_params auxiliary_data MAX_TRIES
    (fees.getD (calculate_maximum_fees protocol_params))

/-- `combine_witness_set` (lines 287–307): appends the supplied witness set's
vkeys after the transaction's existing vkeys; body, auxiliary data and the
other witness-set fields are taken from the transaction unchanged. -/
def combine_witness_set (tx : Transaction)
    (witness_set : TransactionWitnessSet) : Except Error Transaction :=
  let body := tx.body
  let auxiliary_data := tx.auxiliary_data
  let prev_witness_set := tx.witness_set
  let prev_witnesses := prev_witness_set.vkeys.getD []
  let prev_witnesses := prev_witnesses ++ witness_set.vkeys.getD []
  .ok (Transaction.new body { prev_witness_set with vkeys := some prev_witnesses }
    auxiliary_data)

/-! Marketplace templates, `src/backend/src/marketplace/mod.rs`. -/

/-- `ONE_HOUR` (line 21). -/
def ONE_HOUR : Nat := 3600

/-- `ONE_ADA` (line 232). -/
def ONE_ADA : Nat := 1000000

/-- `SellMetadata` from `src/backend/src/marketplace/holder.rs`. -/
structure SellMetadata where
  seller_address : Address
  price : Nat
deriving DecidableEq

/-- `calculate_cuts` (lines 234–240 of `marketplace/mod.rs`).  The source
computes `seller_cut = price - revenue_cut + ONE_ADA * 2` with unchecked
`u64` arithmetic; an underflowing subtraction or overflowing addition is a
runtime panic (debug profile) and is modelled as `none`. -/
def calculate_cuts (price : Nat) : Option (Nat × Nat) :=
  let one_percent := price / 100
  let revenue_cut := max (one_percent * 2) ONE_ADA
  if revenue_cut ≤ price then
    if price - revenue_cut + ONE_ADA * 2 < U64_LIMIT then
      some (revenue_cut, price - revenue_cut + ONE_ADA * 2)
    else none
  else none

/-- The outputs constructed by `Marketplace::buy` (lines 113–125): the
revenue cut to the marketplace revenue address, the seller cut to the
listing's recorded seller, and the full value of the NFT-holding UTxO to the
buyer.  `none` models the panic inside `calculate_cuts`. -/
def buy_outputs (revenue_address : Address) (sell_metadata : SellMetadata)
    (buyer_address : Address) (nft_value : Value) :
    Option (List TransactionOutput) :=
  match calculate_cuts sell_metadata.price with
  | none => none
  | some (revenue_cut, seller_cut) =>
    some [TransactionOutput.new revenue_address (Value.new revenue_cut),
          TransactionOutput.new sell_metadata.seller_address
            (Value.new seller_cut),
          TransactionOutput.new buyer_address nft_value]

/-- `multiasset.get(policy_id)` followed by `assets.get(asset_name)`. -/
def multiasset_get (ma : MultiAsset) (p : PolicyID) (n : AssetName) :
    Option Nat :=
  (ma.find? (fun e => e.1 = (p, n))).map (fun e => e.2)

/-- The loop of `find_nft` (lines 256–282): the last UTxO carrying the asset
is kept, the others are collected in order. -/
def find_nft_go (policy_id : PolicyID) (asset_name : AssetName) :
    List TransactionUnspentOutput → Option TransactionUnspentOutput →
    List TransactionUnspentOutput →
    Option TransactionUnspentOutput × List TransactionUnspentOutput
  | [], nft_utxo, remaining => (nft_utxo, remaining.reverse)
  | utxo :: rest, nft_utxo, remaining =>
    match utxo.output.amount.multiasset.bind
        (fun ma => multiasset_get ma policy_id asset_name) with
    | some _ => find_nft_go policy_id asset_name rest (some utxo) remaining
    | none => find_nft_go policy_id asset_name rest nft_utxo (utxo :: remaining)

/-- `find_nft` (lines 256–282). -/
def find_nft (utxos : List TransactionUnspentOutput) (policy_id : PolicyID)
    (asset_name : AssetName) :
    Except Error (TransactionUnspentOutput × List TransactionUnspentOutput) :=
  match find_nft_go policy_id asset_name utxos none [] with
  | (none, _) => .error (.Message "No such NFT is for sale")
  | (some nft, remaining) => .ok (nft, remaining)

/-- `Marketplace::cancel` (lines 158–217), with the data fetched from the
database (listing metadata, seller and holder UTxO sets, slot, protocol
parameters) passed as arguments and the holder's signing key modelled by the
function `holder_sign`.  The authorization check compares the byte strings of
the two addresses before anything is built. -/
def Marketplace.cancel (ext : ExternalLedger) (revenue_address : Address)
    (holder_sign : Nat → Vkeywitness) (seller_address : Address)
    (sell_metadata : SellMetadata)
    (seller_utxos holder_utxos : List TransactionUnspentOutput)
    (policy_id : PolicyID) (asset_name : AssetName) (slot : Nat)
    (protocol_params : ProtocolParams) : Except Error Transaction :=
  if sell_metadata.seller_address ≠ seller_address then
    .error (.Message "Only the seller can cancel the listing")
  else
    match find_nft holder_utxos policy_id asset_name with
    | .error e => .error e
    | .ok (nft_utxo, _) =>
      let nft_output := TransactionOutput.new sell_metadata.seller_address
        nft_utxo.output.amount
      let cancellation_output := TransactionOutput.new revenue_address
        (Value.new ONE_ADA)
      let outputs := [nft_output, cancellation_output]
      let inputs := [nft_utxo]
      let tx_witness_params : TransactionWitnessSetParams := { vkey_count := 2 }
      match build_transaction_body ext seller_utxos inputs outputs
          (slot + ONE_HOUR) protocol_params none none tx_witness_params none with
      | .error e => .error e
      | .ok tx_body =>
        let tx_hash := ext.hash_transaction tx_body
        let vkey := holder_sign tx_hash
        let tx_witness_set : TransactionWitnessSet := { vkeys := some [vkey] }
        .ok (Transaction.new tx_body tx_witness_set none)

/-! Vocabulary used by the theorem statements. -/

/-- Sum of the coin of a builder's inputs (the selected input coin). -/
def input_coin_sum (tb : TransactionBuilder) : Nat :=
  (tb.inputs.map (fun e => e.2.2.coin)).sum

/-- Sum of the coin of a builder's outputs (the emitted output coin). -/
def output_coin_sum (tb : TransactionBuilder) : Nat :=
  (tb.outputs.map (fun o => o.amount.coin)).sum

/-- Sum of the coin of a list of outputs. -/
def output_list_coin_sum (l : List TransactionOutput) : Nat :=
  (l.map (fun o => o.amount.coin)).sum

/-- Sum of the coin of a list of UTxOs. -/
def utxo_coin_sum (l : List TransactionUnspentOutput) : Nat :=
  (l.map (fun u => u.output.amount.coin)).sum

/-- The entry `add_input` records for a UTxO. -/
def utxo_entry (u : TransactionUnspentOutput) :
    Address × TransactionInput × Value :=
  (u.output.address, u.input, u.output.amount)

/-- The output the selector emits to preserve a candidate's asset content:
the candidate's output with its coin lowered to the ledger minimum. -/
def reissue_output (ext : ExternalLedger) (m : Nat)
    (u : TransactionUnspentOutput) : TransactionOutput :=
  set_output_lovelace u.output (ext.min_ada_required u.output.amount m)

/-- The asset-preserving output a consumed candidate contributes, when any. -/
def reissue_opt (ext : ExternalLedger) (m : Nat)
    (u : TransactionUnspentOutput) : Option TransactionOutput :=
  match u.output.amount.multiasset with
  | some _ => some (reissue_output ext m u)
  | none => none

/-- What a consumed candidate adds to the selected amount: its full coin when
it carries no assets, only the excess above the ledger minimum otherwise. -/
def coin_contribution (ext : ExternalLedger) (m : Nat)
    (u : TransactionUnspentOutput) : Nat :=
  match u.output.amount.multiasset with
  | some _ => u.output.amount.coin - ext.min_ada_required u.output.amount m
  | none => u.output.amount.coin

/-- Total selected-amount contribution of a list of consumed candidates. -/
def contrib_sum (ext : ExternalLedger) (m : Nat)
    (l : List TransactionUnspentOutput) : Nat :=
  (l.map (coin_contribution ext m)).sum

/-- The minimum coin for a bare change output, as the selector computes it
(line 217–220 of `coin.rs`). -/
def change_floor (ext : ExternalLedger) (params : ProtocolParams) : Nat :=
  ext.min_ada_required (Value.new params.minimum_utxo_value)
    params.minimum_utxo_value

/-- The stop condition of the selection loop at selected amount `sel`:
enough is selected and the leftover is at least the bare change floor. -/
def stop_condition (ext : ExternalLedger) (params : ProtocolParams)
    (total sel : Nat) : Prop :=
  total ≤ sel ∧ change_floor ext params ≤ sel - total

instance (ext : ExternalLedger) (params : ProtocolParams) (total sel : Nat) :
    Decidable (stop_condition ext params total sel) := by
  unfold stop_condition; infer_instance

/-! Concrete instantiations used to evaluate the engine on closed inputs. -/

/-- A concrete external-ledger instantiation: a bare value needs the
protocol's minimum-UTxO coin, and asset content raises the requirement
(CSL-like shape); hashing, witnessing and the fee function are arbitrary
concrete functions, the fee function returning the linear-fee coefficient. -/
def ext_example : ExternalLedger :=
  { min_ada_required := fun v m =>
      match v.multiasset with
      | none => m
      | some ma => m + 500000 * ma.length
    hash_transaction := fun b => b.fee
    make_vkey_witness := fun h => h + 1
    min_fee := fun _ lf => .ok lf.coefficient }

/-- Concrete protocol parameters (mainnet-like magnitudes). -/
def params_example : ProtocolParams :=
  { linear_fee := { coefficient := 44, constant := 155381 }
    minimum_utxo_value := 1000000
    pool_deposit := 500000000
    key_deposit := 2000000
    max_tx_size := 16384
    max_value_size := 5000
    coins_per_utxo_word := 34482 }

/-- A concrete asset-free candidate UTxO holding 2 ada. -/
def utxo_example : TransactionUnspentOutput :=
  { input := { transaction_id := 1, index := 0 }
    output := TransactionOutput.new [3] (Value.new 2000000) }

/-- A concrete empty transaction body. -/
def body_example : TransactionBody :=
  { inputs := [], outputs := [], fee := 0, ttl := none, mint := none,
    auxiliary_data_hash := none }

/-- A concrete asset-free candidate UTxO holding 5 ada. -/
def utxo_big : TransactionUnspentOutput :=
  { input := { transaction_id := 2, index := 0 }
    output := TransactionOutput.new [4] (Value.new 5000000) }

/-- A concrete candidate UTxO holding 10 ada and one NFT. -/
def utxo_nft : TransactionUnspentOutput :=
  { input := { transaction_id := 3, index := 1 }
    output := { address := [5]
                amount := { coin := 10000000, multiasset := some [((1, 1), 1)] }
                data_hash := none } }

/-- A concrete requested output asking for 2 ada. -/
def out_two_ada : TransactionOutput := TransactionOutput.new [0] (Value.new 2000000)

/-- The normalization `calculate_output_amount` applies to one output. -/
def normalize_output (ext : ExternalLedger) (m : Nat)
    (o : TransactionOutput) : TransactionOutput :=
  if o.amount.coin < ext.min_ada_required o.amount m then
    set_output_lovelace o (ext.min_ada_required o.amount m)
  else o

/-- Full characterization of a successful run of the selection loop started
at candidate list `rest`, selected amount `sel` and builder `tb`: some
non-empty prefix `rest.take k` of the candidates is consumed, its last
element receives the change output, asset-carrying consumed candidates hold
at least their ledger minimum, the stop condition holds after the `k`-th
candidate and at no earlier step, the consumed candidates are appended to the
inputs, and the outputs gain the asset-preserving re-issued outputs followed
by the change output of value (selected − required). -/
def SelSpec (ext : ExternalLedger) (params : ProtocolParams) (total : Nat)
    (rest : List TransactionUnspentOutput) (sel : Nat)
    (tb tb' : TransactionBuilder) : Prop :=
  ∃ k lastU,
    1 ≤ k ∧ k ≤ rest.length ∧
    (rest.take k).getLast? = some lastU ∧
    (∀ u ∈ rest.take k, u.output.amount.multiasset.isSome →
      ext.min_ada_required u.output.amount params.minimum_utxo_value ≤
        u.output.amount.coin) ∧
    stop_condition ext params total
      (sel + contrib_sum ext params.minimum_utxo_value (rest.take k)) ∧
    (∀ j, 1 ≤ j → j < k →
      ¬ stop_condition ext params total
        (sel + contrib_sum ext params.minimum_utxo_value (rest.take j))) ∧
    tb'.inputs = tb.inputs ++ (rest.take k).map utxo_entry ∧
    tb'.outputs = tb.outputs ++
      (rest.take k).filterMap (reissue_opt ext params.minimum_utxo_value) ++
      [TransactionOutput.new lastU.output.address
        (Value.new (sel + contrib_sum ext params.minimum_utxo_value
          (rest.take k) - total))]

/-! Inversion lemmas for the checked `u64` arithmetic. -/

theorem checked_add_ok {a b c : Nat} (h : checked_add a b = .ok c) :
    c = a + b ∧ a + b < U64_LIMIT := by
  unfold checked_add at h
  split at h
  · cases h; exact ⟨rfl, by assumption⟩
  · cases h

theorem checked_sub_ok {a b c : Nat} (h : checked_sub a b = .ok c) :
    c = a - b ∧ b ≤ a := by
  unfold checked_sub at h
  split at h
  · cases h; exact ⟨rfl, by assumption⟩
  · cases h

theorem calculate_output_amount_go_spec (ext : ExternalLedger) (m : Nat) :
    ∀ (outputs : List TransactionOutput) (acc : Nat)
      (outs : List TransactionOutput) (total : Nat),
      calculate_output_amount_go ext m outputs acc = .ok (outs, total) →
      outs = outputs.map (normalize_output ext m) ∧
      total = acc + output_list_coin_sum outs := by
  intro outputs
  induction outputs with
  | nil =>
    intro acc outs total h
    cases h
    simp [output_list_coin_sum]
  | cons o rest ih =>
    intro acc outs total h
    unfold calculate_output_amount_go at h
    by_cases hlt : o.amount.coin < ext.min_ada_required o.amount m
    · simp only [hlt, if_true] at h
      cases hadd : checked_add acc (ext.min_ada_required o.amount m) with
      | error e => rw [hadd] at h; dsimp only at h; cases h
      | ok acc' =>
        rw [hadd] at h
        dsimp only at h
        cases hrec : calculate_output_amount_go ext m rest acc' with
        | error e => rw [hrec] at h; dsimp only at h; cases h
        | ok p =>
          obtain ⟨outs', t'⟩ := p
          rw [hrec] at h
          dsimp only at h
          simp only [Except.ok.injEq, Prod.mk.injEq] at h
          obtain ⟨houts, htot⟩ := h
          subst houts htot
          obtain ⟨ho, ht⟩ := ih acc' outs' t' hrec
          obtain ⟨hacc, _⟩ := checked_add_ok hadd
          refine ⟨by rw [ho]; simp [normalize_output, hlt], ?_⟩
          simp only [output_list_coin_sum, List.map_cons, List.sum_cons] at ht ⊢
          simp only [set_output_lovelace, Value.set_coin]
          omega
    · simp only [hlt, if_false] at h
      cases hadd : checked_add acc o.amount.coin with
      | error e => rw [hadd] at h; dsimp only at h; cases h
      | ok acc' =>
        rw [hadd] at h
        dsimp only at h
        cases hrec : calculate_output_amount_go ext m rest acc' with
        | error e => rw [hrec] at h; dsimp only at h; cases h
        | ok p =>
          obtain ⟨outs', t'⟩ := p
          rw [hrec] at h
          dsimp only at h
          simp only [Except.ok.injEq, Prod.mk.injEq] at h
          obtain ⟨houts, htot⟩ := h
          subst houts htot
          obtain ⟨ho, ht⟩ := ih acc' outs' t' hrec
          obtain ⟨hacc, _⟩ := checked_add_ok hadd
          refine ⟨by rw [ho]; simp [normalize_output, hlt], ?_⟩
          simp only [output_list_coin_sum, List.map_cons, List.sum_cons] at ht ⊢
          omega

/-- C5 (amended): on success the Output Normalizer returns the requested
outputs with every below-minimum coin raised to exactly its ledger minimum
(address, multiasset and attached-data hash preserved) and the others
unchanged, and a total equal to the base fee plus the coin of all emitted
outputs — the running total accumulates the full raised minimum for a raised
output (not the delta) and the original coin otherwise; a zero-coin output
with a positive minimum is always raised, never rejected. -/
theorem calculate_output_amount_spec (ext : ExternalLedger)
    (outputs outs : List TransactionOutput) (fees m total : Nat)
    (h : calculate_output_amount ext outputs fees m = .ok (outs, total)) :
    outs = outputs.map (normalize_output ext m) ∧
    total = fees + output_list_coin_sum outs ∧
    (∀ o : TransactionOutput, ∀ c : Nat,
      (set_output_lovelace o c).data_hash = o.data_hash ∧
      (set_output_lovelace o c).amount.multiasset = o.amount.multiasset ∧
      (set_output_lovelace o c).amount.coin = c ∧
      (set_output_lovelace o c).address = o.address) ∧
    (∀ o ∈ outputs, o.amount.coin = 0 → 0 < ext.min_ada_required o.amount m →
      normalize_output ext m o =
        set_output_lovelace o (ext.min_ada_required o.amount m)) := by
  obtain ⟨h1, h2⟩ := calculate_output_amount_go_spec ext m outputs fees outs total h
  refine ⟨h1, h2, fun o c => ⟨rfl, rfl, rfl, rfl⟩, fun o _ hc hm => ?_⟩
  simp [normalize_output, hc, hm]

/-- Witness for C5: a concrete run with one below-minimum output and one
already-valid output. -/
theorem calculate_output_amount_spec_witness :
    calculate_output_amount ext_example
        [TransactionOutput.new [0] (Value.new 5),
         TransactionOutput.new [1] (Value.new 2000000)] 7 1000000 =
      .ok ([TransactionOutput.new [0] (Value.new 1000000),
            TransactionOutput.new [1] (Value.new 2000000)], 3000007) ∧
    3000007 = 7 + output_list_coin_sum
      [TransactionOutput.new [0] (Value.new 1000000),
       TransactionOutput.new [1] (Value.new 2000000)] := by
  have h := calculate_output_amount_spec ext_example
    [TransactionOutput.new [0] (Value.new 5),
     TransactionOutput.new [1] (Value.new 2000000)]
    [TransactionOutput.new [0] (Value.new 1000000),
     TransactionOutput.new [1] (Value.new 2000000)] 7 1000000 3000007 rfl
  exact ⟨rfl, h.2.1⟩

/-- C5 counterexample: for an output holding 5 lovelace raised to a minimum
of 1000000, the running total (over base fee 0) becomes the full raised
minimum 1000000, not the delta 999995 the claim describes. -/
theorem calculate_output_amount_delta_counterexample :
    calculate_output_amount ext_example
        [TransactionOutput.new [0] (Value.new 5)] 0 1000000 =
      .ok ([TransactionOutput.new [0] (Value.new 1000000)], 1000000) ∧
    (1000000 : Nat) ≠ 1000000 - 5 := by
  exact ⟨rfl, by decide⟩

/-- C6: whenever `calculate_cuts` completes, the platform cut is
`max(2% of price, 1 ada)` (integer percent, as the source computes it) and
the seller cut is `price − platform cut + 2 ada` (the deposit refund); at
price 20 ada this is 1 ada and 21 ada, and `Marketplace::buy` sends the
revenue cut to the revenue address, the seller cut to the recorded seller,
and the NFT UTxO's value to the buyer as the last output. -/
theorem calculate_cuts_spec (price r s : Nat)
    (h : calculate_cuts price = some (r, s)) :
    r = max (price / 100 * 2) ONE_ADA ∧
    s = price - r + ONE_ADA * 2 ∧
    calculate_cuts (20 * ONE_ADA) = some (ONE_ADA, 21 * ONE_ADA) ∧
    (∀ (ra ba : Address) (nv : Value) (sm : SellMetadata), sm.price = price →
      buy_outputs ra sm ba nv =
        some [TransactionOutput.new ra (Value.new r),
              TransactionOutput.new sm.seller_address (Value.new s),
              TransactionOutput.new ba nv]) := by
  simp only [calculate_cuts] at h
  split at h
  · rename_i hc1
    split at h
    · rename_i hc2
      cases h
      refine ⟨rfl, rfl, by decide, fun ra ba nv sm hp => ?_⟩
      unfold buy_outputs
      rw [hp]
      have hcut : calculate_cuts price =
          some (max (price / 100 * 2) ONE_ADA,
            price - max (price / 100 * 2) ONE_ADA + ONE_ADA * 2) := by
        simp only [calculate_cuts]
        rw [if_pos hc1, if_pos hc2]
      rw [hcut]
    · cases h
  · cases h

/-- Witness for C6 at price 20 ada. -/
theorem calculate_cuts_spec_witness :
    calculate_cuts 20000000 = some (1000000, 21000000) ∧
    (1000000 : Nat) = max (20000000 / 100 * 2) ONE_ADA ∧
    (21000000 : Nat) = 20000000 - 1000000 + ONE_ADA * 2 := by
  have h := calculate_cuts_spec 20000000 1000000 21000000 (by decide)
  exact ⟨by decide, h.1, h.2.1⟩

/-- C8: the revenue-cut computation does not complete for every price — the
unchecked `u64` subtraction `price - revenue_cut` underflows (a panic, not a
typed error) for every price below the 1-ada platform-cut floor. -/
theorem calculate_cuts_underflow (price : Nat) (h : price < ONE_ADA) :
    calculate_cuts price = none := by
  unfold calculate_cuts
  have hmax : ¬ (max (price / 100 * 2) ONE_ADA ≤ price) := by
    rw [Nat.max_le]
    omega
  simp [hmax]

/-- Witness for C8: the concrete failing price 999999 lovelace. -/
theorem calculate_cuts_underflow_witness :
    calculate_cuts 999999 = none ∧ 999999 < ONE_ADA :=
  ⟨calculate_cuts_underflow 999999 (by decide), by decide⟩

/-- C7 (amended): cancelling with a caller address different from the
listing's recorded seller address fails with
`Error::Message("Only the seller can cancel the listing")` before any
transaction is built, and any successful cancel implies the caller is the
recorded seller. -/
theorem cancel_requires_seller (ext : ExternalLedger)
    (revenue_address : Address) (holder_sign : Nat → Vkeywitness)
    (seller_address : Address) (sell_metadata : SellMetadata)
    (seller_utxos holder_utxos : List TransactionUnspentOutput)
    (policy_id : PolicyID) (asset_name : AssetName) (slot : Nat)
    (protocol_params : ProtocolParams) :
    (sell_metadata.seller_address ≠ seller_address →
      Marketplace.cancel ext revenue_address holder_sign seller_address
          sell_metadata seller_utxos holder_utxos policy_id asset_name slot
          protocol_params =
        .error (.Message "Only the seller can cancel the listing")) ∧
    (∀ tx : Transaction,
      Marketplace.cancel ext revenue_address holder_sign seller_address
          sell_metadata seller_utxos holder_utxos policy_id asset_name slot
          protocol_params = .ok tx →
      sell_metadata.seller_address = seller_address) := by
  constructor
  · intro hne
    unfold Marketplace.cancel
    simp [hne]
  · intro tx hok
    by_contra hne
    unfold Marketplace.cancel at hok
    simp [hne] at hok

/-- Witness for C7: a concrete non-seller caller is rejected. -/
theorem cancel_requires_seller_witness :
    Marketplace.cancel ext_example [9] (fun h => h) [1]
        { seller_address := [2], price := 5000000 } [] [] 0 0 0
        params_example =
      .error (.Message "Only the seller can cancel the listing") :=
  (cancel_requires_seller ext_example [9] (fun h => h) [1]
    { seller_address := [2], price := 5000000 } [] [] 0 0 0
    params_example).1 (by decide)

/-- C7 counterexample: the engine's error enum has no `NotSeller` kind — at a
concrete non-seller caller the failure is of the `Message` kind. -/
theorem cancel_not_seller_kind_counterexample :
    Marketplace.cancel ext_example [9] (fun h => h) [1]
        { seller_address := [2], price := 5000000 } [] [] 0 0 0
        params_example =
      .error (.Message "Only the seller can cancel the listing") ∧
    Error.kind (.Message "Only the seller can cancel the listing") =
      "Message" ∧
    "Message" ≠ "NotSeller" := by
  refine ⟨?_, rfl, by decide⟩
  unfold Marketplace.cancel
  simp [show ([2] : Address) ≠ [1] by decide]

/-- C9 (amended): `combine_witness_set` returns the transaction with the
supplied witness set's vkeys appended after the existing vkeys (duplicates
are not removed), the other witness-set fields, the body and the auxiliary
data unchanged. -/
theorem combine_witness_set_spec (tx : Transaction)
    (ws : TransactionWitnessSet) :
    combine_witness_set tx ws =
      .ok (Transaction.new tx.body
        { tx.witness_set with
          vkeys := some (tx.witness_set.vkeys.getD [] ++ ws.vkeys.getD []) }
        tx.auxiliary_data) := rfl

theorem checked_sub_of_le {a b : Nat} (h : b ≤ a) :
    checked_sub a b = .ok (a - b) := by
  simp [checked_sub, h]

/-- A stopping step establishes the loop characterization with `k = 1`. -/
theorem SelSpec_stop (ext : ExternalLedger) (params : ProtocolParams)
    (total : Nat) (u : TransactionUnspentOutput)
    (rest : List TransactionUnspentOutput) (sel : Nat)
    (tb tb₂ tb' : TransactionBuilder)
    (hins : tb₂.inputs = tb.inputs ++ [utxo_entry u])
    (houts : tb₂.outputs = tb.outputs ++
      (reissue_opt ext params.minimum_utxo_value u).toList)
    (hmin : u.output.amount.multiasset.isSome →
      ext.min_ada_required u.output.amount params.minimum_utxo_value ≤
        u.output.amount.coin)
    (hstop : stop_condition ext params total
      (sel + coin_contribution ext params.minimum_utxo_value u))
    (htb' : tb' = tb₂.add_output (TransactionOutput.new u.output.address
      (Value.new (sel + coin_contribution ext params.minimum_utxo_value u
        - total)))) :
    SelSpec ext params total (u :: rest) sel tb tb' := by
  refine ⟨1, u, le_refl 1, by simp, by simp, ?_, ?_, ?_, ?_, ?_⟩
  · intro v hv hsome
    simp only [List.take_succ_cons, List.take_zero, List.mem_singleton] at hv
    subst hv
    exact hmin hsome
  · simpa [contrib_sum, List.take_succ_cons] using hstop
  · intro j h1 hj
    exact absurd (Nat.lt_of_lt_of_le hj h1) (Nat.lt_irrefl j)
  · subst htb'
    simp [TransactionBuilder.add_output, hins, List.take_succ_cons, utxo_entry]
  · subst htb'
    simp only [TransactionBuilder.add_output, houts, List.take_succ_cons,
      List.take_zero, List.filterMap_cons, List.filterMap_nil, contrib_sum,
      List.map_cons, List.map_nil, List.sum_cons, List.sum_nil, Nat.add_zero]
    cases hro : reissue_opt ext params.minimum_utxo_value u <;>
      simp [hro, List.append_assoc]

/-- A non-stopping step shifts the loop characterization by one candidate. -/
theorem SelSpec_cons (ext : ExternalLedger) (params : ProtocolParams)
    (total : Nat) (u : TransactionUnspentOutput)
    (rest : List TransactionUnspentOutput) (sel s : Nat)
    (tb tb₂ tb' : TransactionBuilder)
    (hs : s = sel + coin_contribution ext params.minimum_utxo_value u)
    (hins : tb₂.inputs = tb.inputs ++ [utxo_entry u])
    (houts : tb₂.outputs = tb.outputs ++
      (reissue_opt ext params.minimum_utxo_value u).toList)
    (hmin : u.output.amount.multiasset.isSome →
      ext.min_ada_required u.output.amount params.minimum_utxo_value ≤
        u.output.amount.coin)
    (hnostop : ¬ stop_condition ext params total s)
    (hrec : SelSpec ext params total rest s tb₂ tb') :
    SelSpec ext params total (u :: rest) sel tb tb' := by
  obtain ⟨k, lastU, hk1, hklen, hlast, hassets, hstop, hmini, hinputs,
    houtputs⟩ := hrec
  have hcsum : ∀ l, contrib_sum ext params.minimum_utxo_value (u :: l) =
      coin_contribution ext params.minimum_utxo_value u +
        contrib_sum ext params.minimum_utxo_value l := by
    intro l
    simp [contrib_sum]
  refine ⟨k + 1, lastU, by omega, ?_, ?_, ?_, ?_, ?_, ?_, ?_⟩
  · simp only [List.length_cons]
    omega
  · rw [List.take_succ_cons]
    obtain ⟨x, xs, hx⟩ := List.exists_cons_of_ne_nil
      (show rest.take k ≠ [] by intro hnil; rw [hnil] at hlast; cases hlast)
    rw [hx, List.getLast?_cons_cons, ← hx]
    exact hlast
  · intro v hv hsome
    rw [List.take_succ_cons] at hv
    rcases List.mem_cons.mp hv with hv | hv
    · subst hv
      exact hmin hsome
    · exact hassets v hv hsome
  · rw [List.take_succ_cons, hcsum]
    have harith : sel + (coin_contribution ext params.minimum_utxo_value u +
        contrib_sum ext params.minimum_utxo_value (rest.take k)) =
        s + contrib_sum ext params.minimum_utxo_value (rest.take k) := by
      omega
    rw [harith]
    exact hstop
  · intro j h1 hj
    rcases j with _ | j'
    · exact absurd h1 (by decide)
    · rw [List.take_succ_cons, hcsum]
      have harith : sel + (coin_contribution ext params.minimum_utxo_value u +
          contrib_sum ext params.minimum_utxo_value (rest.take j')) =
          s + contrib_sum ext params.minimum_utxo_value (rest.take j') := by
        omega
      rw [harith]
      rcases Nat.eq_zero_or_pos j' with hj0 | hj0
      · subst hj0
        simpa [contrib_sum] using hnostop
      · exact hmini j' hj0 (by omega)
  · rw [List.take_succ_cons, List.map_cons, hinputs, hins]
    simp [List.append_assoc]
  · rw [List.take_succ_cons, hcsum]
    have harith : sel + (coin_contribution ext params.minimum_utxo_value u +
        contrib_sum ext params.minimum_utxo_value (rest.take k)) =
        s + contrib_sum ext params.minimum_utxo_value (rest.take k) := by
      omega
    rw [harith, houtputs, houts]
    cases hro : reissue_opt ext params.minimum_utxo_value u <;>
      simp [hro, List.filterMap_cons, List.append_assoc]

/-- Master lemma: every successful run of the selection loop satisfies the
full characterization `SelSpec`. -/
theorem selection_loop_spec (ext : ExternalLedger) (params : ProtocolParams)
    (total : Nat) :
    ∀ (rest : List TransactionUnspentOutput) (sel : Nat)
      (tb tb' : TransactionBuilder),
      selection_loop ext params total rest sel tb = .ok tb' →
      SelSpec ext params total rest sel tb tb' := by
  intro rest
  induction rest with
  | nil =>
    intro sel tb tb' h
    simp [selection_loop] at h
  | cons u rest ih =>
    intro sel tb tb' h
    simp only [selection_loop] at h
    cases hma : u.output.amount.multiasset with
    | none =>
      rw [hma] at h
      dsimp only at h
      cases hadd : checked_add sel u.output.amount.coin with
      | error e =>
        rw [hadd] at h
        dsimp only at h
        cases h
      | ok s =>
        rw [hadd] at h
        dsimp only at h
        have hs' : s = sel + coin_contribution ext params.minimum_utxo_value u := by
          obtain ⟨h1, _⟩ := checked_add_ok hadd
          simp [coin_contribution, hma, h1]
        by_cases htot : total ≤ s
        · rw [if_pos htot, checked_sub_of_le htot] at h
          dsimp only at h
          by_cases hlt : s - total <
              ext.min_ada_required (Value.new params.minimum_utxo_value)
                params.minimum_utxo_value
          · rw [if_pos hlt] at h
            refine SelSpec_cons ext params total u rest sel s tb _ tb' hs'
              (by simp [TransactionBuilder.add_input, utxo_entry])
              (by simp [TransactionBuilder.add_input, reissue_opt, hma])
              (by intro hsome; simp [hma] at hsome) ?_ (ih s _ tb' h)
            intro hstop
            exact absurd hstop.2 (by simpa [change_floor] using Nat.not_le.mpr hlt)
          · rw [if_neg hlt] at h
            cases h
            refine SelSpec_stop ext params total u rest sel tb
              (tb.add_input u.output.address u.input u.output.amount) _
              (by simp [TransactionBuilder.add_input, utxo_entry])
              (by simp [TransactionBuilder.add_input, reissue_opt, hma])
              (by intro hsome; simp [hma] at hsome) ?_ ?_
            · rw [← hs']
              exact ⟨htot, by simpa [change_floor] using Nat.le_of_not_lt hlt⟩
            · rw [← hs']
        · rw [if_neg htot] at h
          refine SelSpec_cons ext params total u rest sel s tb _ tb' hs'
            (by simp [TransactionBuilder.add_input, utxo_entry])
            (by simp [TransactionBuilder.add_input, reissue_opt, hma])
            (by intro hsome; simp [hma] at hsome) ?_ (ih s _ tb' h)
          intro hstop
          exact absurd hstop.1 htot
    | some ma =>
      rw [hma] at h
      dsimp only at h
      cases hsub : checked_sub u.output.amount.coin
          (ext.min_ada_required u.output.amount params.minimum_utxo_value) with
      | error e =>
        rw [hsub] at h
        dsimp only at h
        cases h
      | ok ex =>
        rw [hsub] at h
        dsimp only at h
        cases hadd : checked_add sel ex with
        | error e =>
          rw [hadd] at h
          dsimp only at h
          cases h
        | ok s =>
          rw [hadd] at h
          dsimp only at h
          obtain ⟨hex, hexle⟩ := checked_sub_ok hsub
          have hs' : s = sel + coin_contribution ext params.minimum_utxo_value u := by
            obtain ⟨h1, _⟩ := checked_add_ok hadd
            simp [coin_contribution, hma, h1, hex]
          have hmin' : u.output.amount.multiasset.isSome →
              ext.min_ada_required u.output.amount params.minimum_utxo_value ≤
                u.output.amount.coin := fun _ => hexle
          have hins' : (TransactionBuilder.add_input
              (tb.add_output (set_output_lovelace u.output
                (ext.min_ada_required u.output.amount params.minimum_utxo_value)))
              u.output.address u.input u.output.amount).inputs =
              tb.inputs ++ [utxo_entry u] := by
            simp [TransactionBuilder.add_input, TransactionBuilder.add_output,
              utxo_entry]
          have houts' : (TransactionBuilder.add_input
              (tb.add_output (set_output_lovelace u.output
                (ext.min_ada_required u.output.amount params.minimum_utxo_value)))
              u.output.address u.input u.output.amount).outputs =
              tb.outputs ++
                (reissue_opt ext params.minimum_utxo_value u).toList := by
            simp [TransactionBuilder.add_input, TransactionBuilder.add_output,
              reissue_opt, reissue_output, hma]
          by_cases htot : total ≤ s
          · rw [if_pos htot, checked_sub_of_le htot] at h
            dsimp only at h
            by_cases hlt : s - total <
                ext.min_ada_required (Value.new params.minimum_utxo_value)
                  params.minimum_utxo_value
            · rw [if_pos hlt] at h
              refine SelSpec_cons ext params total u rest sel s tb _ tb' hs'
                hins' houts' hmin' ?_ (ih s _ tb' h)
              intro hstop
              exact absurd hstop.2
                (by simpa [change_floor] using Nat.not_le.mpr hlt)
            · rw [if_neg hlt] at h
              cases h
              refine SelSpec_stop ext params total u rest sel tb _ _
                hins' houts' hmin' ?_ ?_
              · rw [← hs']
                exact ⟨htot, by simpa [change_floor] using Nat.le_of_not_lt hlt⟩
              · rw [← hs']
          · rw [if_neg htot] at h
            refine SelSpec_cons ext params total u rest sel s tb _ tb' hs'
              hins' houts' hmin' ?_ (ih s _ tb' h)
            intro hstop
            exact absurd hstop.1 htot

theorem seed_selected_go_ok :
    ∀ (inputs : List TransactionUnspentOutput) (acc s : Nat),
      seed_selected_go inputs acc = .ok s → s = acc + utxo_coin_sum inputs := by
  intro inputs
  induction inputs with
  | nil =>
    intro acc s h
    cases h
    simp [utxo_coin_sum]
  | cons u rest ih =>
    intro acc s h
    simp only [seed_selected_go] at h
    cases hadd : checked_add acc u.output.amount.coin with
    | error e =>
      rw [hadd] at h
      dsimp only at h
      cases h
    | ok acc' =>
      rw [hadd] at h
      dsimp only at h
      have hrest := ih acc' s h
      obtain ⟨ha, _⟩ := checked_add_ok hadd
      simp only [utxo_coin_sum, List.map_cons, List.sum_cons] at hrest ⊢
      omega

theorem foldl_add_input (inputs : List TransactionUnspentOutput) :
    ∀ tb : TransactionBuilder,
      inputs.foldl
        (fun tb u => tb.add_input u.output.address u.input u.output.amount)
        tb =
      { tb with inputs := tb.inputs ++ inputs.map utxo_entry } := by
  induction inputs with
  | nil =>
    intro tb
    simp
  | cons u rest ih =>
    intro tb
    rw [List.foldl_cons, ih]
    simp [TransactionBuilder.add_input, utxo_entry]

theorem foldl_add_output (outs : List TransactionOutput) :
    ∀ tb : TransactionBuilder,
      outs.foldl TransactionBuilder.add_output tb =
        { tb with outputs := tb.outputs ++ outs } := by
  induction outs with
  | nil =>
    intro tb
    simp
  | cons o rest ih =>
    intro tb
    rw [List.foldl_cons, ih]
    simp [TransactionBuilder.add_output]

/-- Splitting the coin of consumed candidates into their selected-amount
contributions and the coin locked in the re-issued asset outputs. -/
theorem contrib_reissue_split (ext : ExternalLedger) (m : Nat) :
    ∀ l : List TransactionUnspentOutput,
      (∀ u ∈ l, u.output.amount.multiasset.isSome →
        ext.min_ada_required u.output.amount m ≤ u.output.amount.coin) →
      utxo_coin_sum l = contrib_sum ext m l +
        output_list_coin_sum (l.filterMap (reissue_opt ext m)) := by
  intro l
  induction l with
  | nil =>
    intro _
    simp [utxo_coin_sum, contrib_sum, output_list_coin_sum]
  | cons u rest ih =>
    intro hall
    have hrest := ih (fun v hv hs => hall v (List.mem_cons_of_mem u hv) hs)
    cases hma : u.output.amount.multiasset with
    | none =>
      simp only [utxo_coin_sum, contrib_sum, List.map_cons, List.sum_cons,
        List.filterMap_cons, reissue_opt, coin_contribution, hma] at *
      omega
    | some ma =>
      have hle := hall u (List.mem_cons_self u rest) (by simp [hma])
      simp only [utxo_coin_sum, contrib_sum, output_list_coin_sum,
        List.map_cons, List.sum_cons, List.filterMap_cons, reissue_opt,
        coin_contribution, reissue_output, set_output_lovelace,
        Value.set_coin, hma] at hrest ⊢
      omega

/-- A successful `largest_first_coin_selection` decomposes into a successful
normalization, a successful seeding with the mandatory inputs' coin sum, and
a selection-loop run characterized by `SelSpec` from the initial builder. -/
theorem largest_first_run (ext : ExternalLedger)
    (outputs : List TransactionOutput)
    (inputs utxos : List TransactionUnspentOutput) (fees : Nat)
    (params : ProtocolParams) (ttl : Nat) (tb' : TransactionBuilder)
    (h : largest_first_coin_selection ext outputs inputs utxos fees params
      ttl = .ok tb') :
    ∃ (normOuts : List TransactionOutput) (total : Nat),
      calculate_output_amount ext outputs fees params.minimum_utxo_value =
        .ok (normOuts, total) ∧
      seed_selected_amount inputs = .ok (utxo_coin_sum inputs) ∧
      total = fees + output_list_coin_sum normOuts ∧
      normOuts = outputs.map (normalize_output ext params.minimum_utxo_value) ∧
      SelSpec ext params total (sort_by_coin utxos).reverse
        (utxo_coin_sum inputs)
        { inputs := inputs.map utxo_entry, outputs := normOuts,
          fee := some fees, ttl := some ttl, auxiliary_data := none } tb' := by
  simp only [largest_first_coin_selection] at h
  cases hco : calculate_output_amount ext outputs fees
      params.minimum_utxo_value with
  | error e =>
    rw [hco] at h
    dsimp only at h
    cases h
  | ok p =>
    obtain ⟨normOuts, total⟩ := p
    rw [hco] at h
    dsimp only at h
    cases hseed : seed_selected_amount inputs with
    | error e =>
      rw [hseed] at h
      dsimp only at h
      cases h
    | ok sel0 =>
      rw [hseed] at h
      dsimp only at h
      have hsel0 : sel0 = utxo_coin_sum inputs := by
        have := seed_selected_go_ok inputs 0 sel0 hseed
        omega
      subst hsel0
      obtain ⟨hnorm, htotal⟩ := calculate_output_amount_go_spec ext
        params.minimum_utxo_value outputs fees normOuts total hco
      refine ⟨normOuts, total, rfl, rfl, htotal, hnorm, ?_⟩
      rw [foldl_add_input, foldl_add_output] at h
      simp only [start_transaction, TransactionBuilder.set_ttl,
        TransactionBuilder.set_fee, List.nil_append] at h
      exact selection_loop_spec ext params total _ _ _ tb' h

/-- C1: for every successful run of the coin selector, the coin of all
selected inputs (mandatory inputs plus consumed candidates) equals the coin
of all emitted outputs (normalized requested outputs, asset-preserving
re-issued outputs, and the change output) plus the assumed fee, exactly. -/
theorem largest_first_conserves_coin (ext : ExternalLedger)
    (outputs : List TransactionOutput)
    (inputs utxos : List TransactionUnspentOutput) (fees : Nat)
    (params : ProtocolParams) (ttl : Nat) (tb' : TransactionBuilder)
    (h : largest_first_coin_selection ext outputs inputs utxos fees params
      ttl = .ok tb') :
    input_coin_sum tb' = output_coin_sum tb' + fees := by
  obtain ⟨normOuts, total, hco, hseed, htotal, hnorm, hspec⟩ :=
    largest_first_run ext outputs inputs utxos fees params ttl tb' h
  obtain ⟨k, lastU, hk1, hklen, hlast, hassets, hstop, hmini, hinputs,
    houtputs⟩ := hspec
  obtain ⟨hle, hfloor⟩ := hstop
  have hsplit := contrib_reissue_split ext params.minimum_utxo_value
    ((sort_by_coin utxos).reverse.take k) hassets
  have hin : input_coin_sum tb' = utxo_coin_sum inputs +
      utxo_coin_sum ((sort_by_coin utxos).reverse.take k) := by
    rw [input_coin_sum, hinputs]
    dsimp only
    rw [List.map_append, List.sum_append, List.map_map, List.map_map]
    rfl
  have hout : output_coin_sum tb' = output_list_coin_sum normOuts +
      (output_list_coin_sum (((sort_by_coin utxos).reverse.take k).filterMap
        (reissue_opt ext params.minimum_utxo_value)) +
      (utxo_coin_sum inputs + contrib_sum ext params.minimum_utxo_value
        ((sort_by_coin utxos).reverse.take k) - total)) := by
    rw [output_coin_sum, houtputs]
    simp [output_list_coin_sum, List.map_append, List.sum_append,
      TransactionOutput.new, Value.new]
  omega

/-- Witness for C1: a concrete successful selection (one 2-ada requested
output, a 5-ada candidate, zero fee) balances exactly. -/
theorem largest_first_conserves_coin_witness :
    input_coin_sum
      { inputs := [([4], { transaction_id := 2, index := 0 },
          Value.new 5000000)],
        outputs := [out_two_ada, TransactionOutput.new [4] (Value.new 3000000)],
        fee := some 0, ttl := some 0, auxiliary_data := none } =
    output_coin_sum
      { inputs := [([4], { transaction_id := 2, index := 0 },
          Value.new 5000000)],
        outputs := [out_two_ada, TransactionOutput.new [4] (Value.new 3000000)],
        fee := some 0, ttl := some 0, auxiliary_data := none } + 0 :=
  largest_first_conserves_coin ext_example [out_two_ada] [] [utxo_big] 0
    params_example 0 _ rfl

/-- C2: every consumed candidate carrying multi-asset content re-issues its
full asset content in an output whose coin is exactly the ledger minimum for
that content (address and attached-data hash preserved), is still added as a
transaction input, and contributes only the excess (original coin minus that
minimum) to the selected amount — reflected in the change output, whose value
is the mandatory coin plus the per-candidate contributions minus the required
total. -/
theorem largest_first_preserves_assets (ext : ExternalLedger)
    (outputs : List TransactionOutput)
    (inputs utxos : List TransactionUnspentOutput) (fees : Nat)
    (params : ProtocolParams) (ttl : Nat) (tb' : TransactionBuilder)
    (h : largest_first_coin_selection ext outputs inputs utxos fees params
      ttl = .ok tb') :
    ∃ (k : Nat) (normOuts : List TransactionOutput) (total : Nat)
      (lastU : TransactionUnspentOutput),
      calculate_output_amount ext outputs fees params.minimum_utxo_value =
        .ok (normOuts, total) ∧
      1 ≤ k ∧
      tb'.inputs = inputs.map utxo_entry ++
        ((sort_by_coin utxos).reverse.take k).map utxo_entry ∧
      (∀ u ∈ (sort_by_coin utxos).reverse.take k,
        u.output.amount.multiasset.isSome →
          reissue_output ext params.minimum_utxo_value u ∈ tb'.outputs ∧
          utxo_entry u ∈ tb'.inputs ∧
          (reissue_output ext params.minimum_utxo_value u).amount.multiasset =
            u.output.amount.multiasset ∧
          (reissue_output ext params.minimum_utxo_value u).amount.coin =
            ext.min_ada_required u.output.amount params.minimum_utxo_value ∧
          (reissue_output ext params.minimum_utxo_value u).address =
            u.output.address ∧
          (reissue_output ext params.minimum_utxo_value u).data_hash =
            u.output.data_hash ∧
          coin_contribution ext params.minimum_utxo_value u =
            u.output.amount.coin -
              ext.min_ada_required u.output.amount params.minimum_utxo_value ∧
          ext.min_ada_required u.output.amount params.minimum_utxo_value ≤
            u.output.amount.coin) ∧
      tb'.outputs.getLast? = some (TransactionOutput.new lastU.output.address
        (Value.new (utxo_coin_sum inputs +
          contrib_sum ext params.minimum_utxo_value
            ((sort_by_coin utxos).reverse.take k) - total))) := by
  obtain ⟨normOuts, total, hco, hseed, htotal, hnorm, hspec⟩ :=
    largest_first_run ext outputs inputs utxos fees params ttl tb' h
  obtain ⟨k, lastU, hk1, hklen, hlast, hassets, hstop, hmini, hinputs,
    houtputs⟩ := hspec
  refine ⟨k, normOuts, total, lastU, hco, hk1, by simpa using hinputs, ?_, ?_⟩
  · intro u hu hsome
    obtain ⟨ma, hma⟩ := Option.isSome_iff_exists.mp hsome
    refine ⟨?_, ?_, rfl, rfl, rfl, rfl, by simp [coin_contribution, hma],
      hassets u hu hsome⟩
    · rw [houtputs]
      refine List.mem_append.mpr (Or.inl (List.mem_append.mpr (Or.inr ?_)))
      exact List.mem_filterMap.mpr ⟨u, hu, by simp [reissue_opt, hma]⟩
    · rw [hinputs]
      simp only [TransactionBuilder.add_input]
      exact List.mem_append.mpr (Or.inr (List.mem_map_of_mem utxo_entry hu))
  · rw [houtputs]
    exact List.getLast?_concat _

/-- Witness for C2: a concrete run consuming a candidate that holds 10 ada
and one NFT re-issues the NFT output and records the candidate as an input. -/
theorem largest_first_preserves_assets_witness :
    reissue_output ext_example params_example.minimum_utxo_value utxo_nft ∈
      ({ inputs := [([5], { transaction_id := 3, index := 1 },
            { coin := 10000000, multiasset := some [((1, 1), 1)] })],
         outputs := [out_two_ada,
           { address := [5],
             amount := { coin := 1500000, multiasset := some [((1, 1), 1)] },
             data_hash := none },
           TransactionOutput.new [5] (Value.new 6500000)],
         fee := some 0, ttl := some 0, auxiliary_data := none } :
        TransactionBuilder).outputs ∧
    utxo_entry utxo_nft ∈
      ({ inputs := [([5], { transaction_id := 3, index := 1 },
            { coin := 10000000, multiasset := some [((1, 1), 1)] })],
         outputs := [out_two_ada,
           { address := [5],
             amount := { coin := 1500000, multiasset := some [((1, 1), 1)] },
             data_hash := none },
           TransactionOutput.new [5] (Value.new 6500000)],
         fee := some 0, ttl := some 0, auxiliary_data := none } :
        TransactionBuilder).inputs := by
  obtain ⟨k, normOuts, total, lastU, hco, hk1, hin, hmem, hlast⟩ :=
    largest_first_preserves_assets ext_example [out_two_ada] [] [utxo_nft] 0
      params_example 0 _ rfl
  have htk : (sort_by_coin [utxo_nft]).reverse.take k = [utxo_nft] := by
    rcases k with _ | k'
    · exact absurd hk1 (by decide)
    · show List.take (k' + 1) [utxo_nft] = [utxo_nft]
      rw [List.take_succ_cons, List.take_nil]
  have hmemu := hmem utxo_nft (by rw [htk]; exact List.mem_singleton_self _)
    (by rfl)
  exact ⟨hmemu.1, hmemu.2.1⟩

/-- C4 (amended): the selector stops at the first candidate after which the
selected amount is at least the required total and the leftover is at least
the minimum coin for a bare change output; when it stops it emits a change
output of value (selected − required) addressed to the most recently consumed
candidate and returns success; as long as the leftover (including a leftover
of exactly zero, when the floor is positive) is below that floor it keeps
selecting instead of stopping. -/
theorem selection_change_and_stop (ext : ExternalLedger)
    (outputs : List TransactionOutput)
    (inputs utxos : List TransactionUnspentOutput) (fees : Nat)
    (params : ProtocolParams) (ttl : Nat) (tb' : TransactionBuilder)
    (h : largest_first_coin_selection ext outputs inputs utxos fees params
      ttl = .ok tb') :
    ∃ (k : Nat) (lastU : TransactionUnspentOutput)
      (normOuts : List TransactionOutput) (total : Nat),
      calculate_output_amount ext outputs fees params.minimum_utxo_value =
        .ok (normOuts, total) ∧
      seed_selected_amount inputs = .ok (utxo_coin_sum inputs) ∧
      1 ≤ k ∧ k ≤ (sort_by_coin utxos).reverse.length ∧
      ((sort_by_coin utxos).reverse.take k).getLast? = some lastU ∧
      stop_condition ext params total (utxo_coin_sum inputs +
        contrib_sum ext params.minimum_utxo_value
          ((sort_by_coin utxos).reverse.take k)) ∧
      (∀ j, 1 ≤ j → j < k →
        ¬ stop_condition ext params total (utxo_coin_sum inputs +
          contrib_sum ext params.minimum_utxo_value
            ((sort_by_coin utxos).reverse.take j))) ∧
      tb'.outputs.getLast? = some (TransactionOutput.new lastU.output.address
        (Value.new (utxo_coin_sum inputs +
          contrib_sum ext params.minimum_utxo_value
            ((sort_by_coin utxos).reverse.take k) - total))) := by
  obtain ⟨normOuts, total, hco, hseed, htotal, hnorm, hspec⟩ :=
    largest_first_run ext outputs inputs utxos fees params ttl tb' h
  obtain ⟨k, lastU, hk1, hklen, hlast, hassets, hstop, hmini, hinputs,
    houtputs⟩ := hspec
  refine ⟨k, lastU, normOuts, total, hco, hseed, hk1, hklen, hlast, hstop,
    hmini, ?_⟩
  rw [houtputs]
  exact List.getLast?_concat _

/-- Witness for C4: the concrete run of the C1 witness stops with a 3-ada
change output to the consumed candidate's address, the stop condition holding
at selected amount 5000000 against a required total of 2000000. -/
theorem selection_change_and_stop_witness :
    ({ inputs := [([4], { transaction_id := 2, index := 0 },
          Value.new 5000000)],
       outputs := [out_two_ada, TransactionOutput.new [4] (Value.new 3000000)],
       fee := some 0, ttl := some 0, auxiliary_data := none } :
      TransactionBuilder).outputs.getLast? =
        some (TransactionOutput.new [4] (Value.new 3000000)) ∧
    stop_condition ext_example params_example 2000000 5000000 := by
  obtain ⟨k, lastU, normOuts, total, hco, hseed, hk1, hklen, hlastu, hstop,
    hmini, hchange⟩ :=
    selection_change_and_stop ext_example [out_two_ada] [] [utxo_big] 0
      params_example 0 _ rfl
  have hk : k = 1 := by
    have hlen : (sort_by_coin [utxo_big]).reverse.length = 1 := rfl
    omega
  subst hk
  have h2 := (show calculate_output_amount ext_example [out_two_ada] 0
      params_example.minimum_utxo_value =
        Except.ok ([out_two_ada], 2000000) from rfl).symm.trans hco
  injection h2 with h3
  injection h3 with h4 h5
  subst h5
  have h6 : (some utxo_big : Option TransactionUnspentOutput) = some lastU :=
    hlastu
  injection h6 with h7
  subst h7
  exact ⟨hchange, hstop⟩

/-- C4 counterexample: a candidate bringing the selected amount exactly to
the required total (leftover zero) does not stop the selector when the change
floor is positive: the loop continues and, the pool being exhausted, returns
`BalanceInsufficient` instead of the success the claim asserts. -/
theorem zero_leftover_does_not_stop_counterexample :
    largest_first_coin_selection ext_example
      [TransactionOutput.new [0] (Value.new 5000000)] [] [utxo_big] 0
      params_example 0 = .error (.Coin .BalanceInsufficient) ∧
    calculate_output_amount ext_example
      [TransactionOutput.new [0] (Value.new 5000000)] 0
      params_example.minimum_utxo_value =
        .ok ([TransactionOutput.new [0] (Value.new 5000000)], 5000000) ∧
    utxo_big.output.amount.coin = 5000000 ∧
    0 < change_floor ext_example params_example := by
  exact ⟨rfl, rfl, rfl, by decide⟩

/-- C10: with an empty optional candidate pool the selector fails with
`BalanceInsufficient`, even when the mandatory inputs' total coin already
meets or exceeds the required total — the stop condition is evaluated only
after popping a candidate, so success needs at least one consumed candidate. -/
theorem empty_pool_balance_insufficient (ext : ExternalLedger)
    (outputs : List TransactionOutput)
    (inputs : List TransactionUnspentOutput) (fees : Nat)
    (params : ProtocolParams) (ttl : Nat)
    (normalized : List TransactionOutput) (total s : Nat)
    (h1 : calculate_output_amount ext outputs fees params.minimum_utxo_value =
      .ok (normalized, total))
    (h2 : seed_selected_amount inputs = .ok s)
    (_h3 : total ≤ s) :
    largest_first_coin_selection ext outputs inputs [] fees params ttl =
      .error (.Coin .BalanceInsufficient) := by
  simp only [largest_first_coin_selection]
  rw [h1]
  dsimp only
  rw [h2]
  dsimp only
  rfl

/-- Witness for C10: mandatory inputs worth 5 ada against a required total of
2 ada still fail with an empty candidate pool. -/
theorem empty_pool_balance_insufficient_witness :
    largest_first_coin_selection ext_example [out_two_ada] [utxo_big] [] 0
      params_example 0 = .error (.Coin .BalanceInsufficient) :=
  empty_pool_balance_insufficient ext_example [out_two_ada] [utxo_big] 0
    params_example 0 [out_two_ada] 2000000 5000000 rfl rfl (by omega)

/-- C3: `build_transaction_body` seeds the fee guess with the linear-fee
coefficient when none is supplied and runs the retry loop with a budget of
exactly `MAX_TRIES = 10` attempts; each attempt re-runs selection from
scratch at the current guess (an attempt fails exactly when that selection
fails); a computed fee equal to the guess returns that attempt's body (a fee
fixed point), an unequal one becomes the next guess, and an exhausted budget
fails with `BalanceInsufficient`. -/
theorem build_transaction_body_spec (ext : ExternalLedger)
    (utxos inputs : List TransactionUnspentOutput)
    (outputs : List TransactionOutput) (ttl : Nat)
    (params : ProtocolParams) (mint : Option Mint)
    (wp : TransactionWitnessSetParams) (aux : Option AuxiliaryData) :
    build_transaction_body ext utxos inputs outputs ttl params none mint wp
        aux =
      build_transaction_body_loop ext utxos inputs outputs ttl params mint wp
        aux MAX_TRIES (calculate_maximum_fees params) ∧
    MAX_TRIES = 10 ∧
    (∀ tries fees tx_body calculated,
      build_attempt ext utxos inputs outputs ttl params mint wp aux fees =
        .ok (tx_body, calculated) →
      (calculated = fees →
        build_transaction_body_loop ext utxos inputs outputs ttl params mint
          wp aux (tries + 1) fees = .ok tx_body) ∧
      (calculated ≠ fees →
        build_transaction_body_loop ext utxos inputs outputs ttl params mint
          wp aux (tries + 1) fees =
        build_transaction_body_loop ext utxos inputs outputs ttl params mint
          wp aux tries calculated)) ∧
    (∀ fees e,
      largest_first_coin_selection ext outputs inputs utxos fees params ttl =
        .error e →
      build_attempt ext utxos inputs outputs ttl params mint wp aux fees =
        .error e) ∧
    (∀ fees,
      build_transaction_body_loop ext utxos inputs outputs ttl params mint wp
        aux 0 fees = .error (.Coin .BalanceInsufficient)) := by
  refine ⟨rfl, rfl, ?_, ?_, fun fees => rfl⟩
  · intro tries fees tx_body calculated hattempt
    constructor
    · intro heq
      simp only [build_transaction_body_loop]
      rw [hattempt]
      dsimp only
      rw [if_pos heq]
    · intro hne
      simp only [build_transaction_body_loop]
      rw [hattempt]
      dsimp only
      rw [if_neg hne]
  · intro fees e hsel
    unfold build_attempt
    rw [hsel]

/-- Witness for C3: a concrete fixed point at the first attempt — with
`ext_example`'s fee function the computed fee is the coefficient 44, so a
guess of 44 converges immediately to the built body. -/
theorem build_transaction_body_spec_witness :
    build_transaction_body_loop ext_example [utxo_example] [] [] 0
        params_example none { vkey_count := 1 } none 1 44 =
      .ok { inputs := [utxo_example.input],
            outputs := [TransactionOutput.new [3] (Value.new 1999956)],
            fee := 44, ttl := some 0, mint := none,
            auxiliary_data_hash := none } :=
  ((build_transaction_body_spec ext_example [utxo_example] [] [] 0
      params_example none { vkey_count := 1 } none).2.2.1 0 44
      { inputs := [utxo_example.input],
        outputs := [TransactionOutput.new [3] (Value.new 1999956)],
        fee := 44, ttl := some 0, mint := none,
        auxiliary_data_hash := none } 44 rfl).1 rfl

/-- C9 counterexample: a signature present in both witness sets appears twice
in the combined set — the merge does not deduplicate. -/
theorem combine_witness_set_duplicate_counterexample :
    (combine_witness_set
        (Transaction.new body_example { vkeys := some [7] } none)
        { vkeys := some [7] }).map (fun t => t.witness_set.vkeys) =
      .ok (some [7, 7]) ∧
    ¬ ([7, 7] : List Vkeywitness).Nodup := by
  exact ⟨rfl, by decide⟩

end CardanoMarketplace
